import Mathlib

/-!
Shallow embedding of the immutable bytes value type of the RustPython VM
(`vm/src/builtins/bytes.rs`) and of the protocol helpers it relies on.

Objects are modelled with an explicit object identity (`oid`), a runtime
class tag and their byte content, so that identity-sensitive behaviour —
the `__mul__` special case and the identity tests in `__bytes__` and the
comparison fast path — is statable.  Byte contents are `List Nat` (each
entry an 8-bit unit).  Fallible operations return `Except PyErr`.
-/

/-- Runtime class of a bytes object: exactly the registered base `bytes`
type, or a strict subclass (identified by a tag). -/
inductive BytesCls
  | base
  | sub (tag : Nat)
  deriving DecidableEq, Repr

/-- A bytes object: object identity, runtime class, immutable byte content
and the optional instance attribute dictionary (represented by its id). -/
structure BytesObj where
  oid : Nat
  cls : BytesCls
  elements : List Nat
  dict : Option Nat
  deriving DecidableEq, Repr

/-- Errors raised by the operations embedded here. -/
inductive PyErr
  | indexError
  | valueError
  | typeError
  deriving DecidableEq, Repr

/-- Generic runtime values produced by the indexing paths. -/
inductive PyValue
  | int (n : Nat)
  | bytes (bs : List Nat)
  deriving DecidableEq, Repr

/-- Modelled from the spec: `PyBytesInner::mul` (the shared algorithm
library's repetition, not under `src/`) repeats the byte sequence `value`
times, with `value < 0` behaving as 0. -/
def innerMul (elements : List Nat) (value : Int) : List Nat :=
  (List.replicate value.toNat elements).flatten

/-- `PyBytes::mul` (also installed as `__rmul__`): if `value == 1` and the
runtime class is exactly the base `bytes` type, return the receiver itself
(same identity); otherwise allocate a fresh base-class object holding the
repeated content.  `fresh` is the object id handed out by the allocator. -/
def PyBytes.mul (zelf : BytesObj) (value : Int) (fresh : Nat) : BytesObj :=
  if value = 1 ∧ zelf.cls = BytesCls.base then
    zelf
  else
    { oid := fresh, cls := BytesCls.base, elements := innerMul zelf.elements value,
      dict := none }

/-- `__rmul__` is the very same method as `__mul__` in the source (one
function registered under both names). -/
def PyBytes.rmul (zelf : BytesObj) (value : Int) (fresh : Nat) : BytesObj :=
  PyBytes.mul zelf value fresh

/-- `PyBytes::bytes` (`__bytes__`): the source tests
`zelf.is(&vm.ctx.types.bytes_type)` — object identity of the *receiver
instance* against the `bytes` *type object* itself (contrast `mul`, which
tests `zelf.class().is(...)`).  `typeOid` is the type object's id; a
bytes instance is a different object from the type object, so the test
never holds and the else branch always allocates a fresh plain copy. -/
def PyBytes.bytes (zelf : BytesObj) (typeOid : Nat) (fresh : Nat) : BytesObj :=
  if zelf.oid = typeOid then
    zelf
  else
    { oid := fresh, cls := BytesCls.base, elements := zelf.elements, dict := none }

theorem innerMul_one (elements : List Nat) : innerMul elements 1 = elements := by
  simp [innerMul]

/-- C1: multiplying by 1 returns the identical object when the runtime
class is exactly the base bytes type; a strict-subclass instance gets a
distinct, freshly allocated object with equal byte content.  `__rmul__`
behaves identically, being the same function. -/
theorem bytes_mul_one_identity (x : BytesObj) (fresh : Nat) (hf : fresh ≠ x.oid) :
    (x.cls = BytesCls.base → PyBytes.mul x 1 fresh = x) ∧
    (x.cls ≠ BytesCls.base →
      (PyBytes.mul x 1 fresh).oid ≠ x.oid ∧
      (PyBytes.mul x 1 fresh).elements = x.elements) ∧
    PyBytes.rmul x 1 fresh = PyBytes.mul x 1 fresh := by
  refine ⟨fun hb => ?_, fun hs => ?_, rfl⟩
  · simp [PyBytes.mul, hb]
  · simp [PyBytes.mul, hs, innerMul_one, hf]

/-- C1 witness: evaluated at a base-class object (identity preserved) and
at a subclass object (fresh copy with equal content). -/
theorem bytes_mul_one_identity_witness :
    PyBytes.mul ⟨0, BytesCls.base, [1, 2], none⟩ 1 7 = ⟨0, BytesCls.base, [1, 2], none⟩ ∧
    (PyBytes.mul ⟨0, BytesCls.sub 3, [1, 2], none⟩ 1 7).oid ≠ 0 ∧
    (PyBytes.mul ⟨0, BytesCls.sub 3, [1, 2], none⟩ 1 7).elements = [1, 2] := by
  refine ⟨(bytes_mul_one_identity ⟨0, BytesCls.base, [1, 2], none⟩ 7 (by decide)).1 rfl, ?_, ?_⟩
  · exact ((bytes_mul_one_identity ⟨0, BytesCls.sub 3, [1, 2], none⟩ 7 (by decide)).2.1
      (by decide)).1
  · exact ((bytes_mul_one_identity ⟨0, BytesCls.sub 3, [1, 2], none⟩ 7 (by decide)).2.1
      (by decide)).2

/-- C10 counterexample: a base-class bytes instance (oid 4, distinct from
the type object's oid 0, fresh id 8): `__bytes__` does *not* return the
identical object — the result carries the fresh oid 8, refuting the
claimed identity preservation for exact-base-type receivers. -/
theorem bytes_dunder_bytes_no_identity :
    (PyBytes.bytes ⟨4, BytesCls.base, [9], none⟩ 0 8).oid = 8 ∧
    PyBytes.bytes ⟨4, BytesCls.base, [9], none⟩ 0 8 ≠ ⟨4, BytesCls.base, [9], none⟩ := by
  refine ⟨rfl, by decide⟩

/-- C10 (amended): because the source compares the receiver's identity
against the type object itself — never true for an instance — `__bytes__`
always returns a distinct, freshly allocated plain base-class bytes
object with byte content equal to the receiver's, for base-class and
subclass receivers alike. -/
theorem bytes_dunder_bytes_always_copy (x : BytesObj) (typeOid fresh : Nat)
    (hinst : x.oid ≠ typeOid) (hf : fresh ≠ x.oid) :
    (PyBytes.bytes x typeOid fresh).oid ≠ x.oid ∧
    (PyBytes.bytes x typeOid fresh).cls = BytesCls.base ∧
    (PyBytes.bytes x typeOid fresh).elements = x.elements := by
  simp [PyBytes.bytes, hinst, hf]

/-- C10 witness: evaluated at a base-class instance (oid 4, type object
oid 0, fresh id 8): a distinct base-class copy with equal content. -/
theorem bytes_dunder_bytes_always_copy_witness :
    (PyBytes.bytes ⟨4, BytesCls.base, [9], none⟩ 0 8).oid ≠ 4 ∧
    (PyBytes.bytes ⟨4, BytesCls.base, [9], none⟩ 0 8).cls = BytesCls.base ∧
    (PyBytes.bytes ⟨4, BytesCls.base, [9], none⟩ 0 8).elements = [9] :=
  bytes_dunder_bytes_always_copy ⟨4, BytesCls.base, [9], none⟩ 0 8 (by decide) (by decide)

/-- Negative-index wraparound: a negative index has the sequence length
added to it before the bounds check. -/
def wrapIndex (len : Nat) (i : Int) : Int :=
  if i < 0 then i + len else i

/-- Modelled from the spec: `get_item_by_index` (sliceable helper, not
under `src/`): the byte at the wrapped position, or an index error when
still out of bounds after wraparound. -/
def getItemByIndex (elements : List Nat) (i : Int) : Except PyErr Nat :=
  let pos := wrapIndex elements.length i
  if 0 ≤ pos ∧ pos < (elements.length : Int) then
    Except.ok (elements.getD pos.toNat 0)
  else
    Except.error PyErr.indexError

/-- A slice descriptor as parsed from a slice object: optional start,
stop and step. -/
structure PySlice where
  start : Option Int
  stop : Option Int
  step : Option Int
  deriving DecidableEq, Repr

/-- Modelled from the spec: `get_item_by_slice` (sliceable helper, not
under `src/`): standard start/stop/step slice semantics, clamping
out-of-range bounds instead of erroring, supporting negative step and
producing the empty result for an empty range; the only error is a zero
step. -/
def getItemBySlice (elements : List Nat) (s : PySlice) : Except PyErr (List Nat) :=
  let len : Int := elements.length
  let step := s.step.getD 1
  if step = 0 then
    Except.error PyErr.valueError
  else if 0 < step then
    let start := match s.start with
      | none => 0
      | some v =>
        let w := wrapIndex elements.length v
        if w < 0 then 0 else if len < w then len else w
    let stop := match s.stop with
      | none => len
      | some v =>
        let w := wrapIndex elements.length v
        if w < 0 then 0 else if len < w then len else w
    let count := if start < stop then (stop - start - 1).toNat / step.toNat + 1 else 0
    Except.ok ((List.range count).map (fun k => elements.getD (start + k * step).toNat 0))
  else
    let start := match s.start with
      | none => len - 1
      | some v =>
        let w := wrapIndex elements.length v
        if w < 0 then -1 else if len ≤ w then len - 1 else w
    let stop := match s.stop with
      | none => -1
      | some v =>
        let w := wrapIndex elements.length v
        if w < 0 then -1 else if len ≤ w then len - 1 else w
    let count := if stop < start then (start - stop - 1).toNat / (-step).toNat + 1 else 0
    Except.ok ((List.range count).map (fun k => elements.getD (start + k * step).toNat 0))

/-- The needle accepted by `__getitem__`: a single integer index or a
slice descriptor (`SequenceIndex` in the source). -/
inductive SequenceIndex
  | int (i : Int)
  | slice (s : PySlice)
  deriving DecidableEq, Repr

/-- `PyBytes::_getitem` (the mapping-table `subscript` and `__getitem__`):
an integer needle yields the byte as an integer value, a slice needle
yields a new bytes value. -/
def PyBytes.getitem (elements : List Nat) (needle : SequenceIndex) : Except PyErr PyValue :=
  match needle with
  | SequenceIndex.int i => (getItemByIndex elements i).map PyValue.int
  | SequenceIndex.slice s => (getItemBySlice elements s).map PyValue.bytes

/-- The sequence-table `item` entry: single-byte indexing returning a
length-1 bytes value (not an integer). -/
def PyBytes.seqItem (elements : List Nat) (i : Int) : Except PyErr PyValue :=
  (getItemByIndex elements i).map (fun x => PyValue.bytes [x])

theorem getItemBySlice_ok (elements : List Nat) (s : PySlice) (hs : s.step ≠ some 0) :
    ∃ bs, getItemBySlice elements s = Except.ok bs := by
  have hstep : s.step.getD 1 ≠ 0 := by
    cases h : s.step with
    | none => simp
    | some v =>
      simp only [Option.getD_some]
      intro hv
      exact hs (by simp [h, hv])
  simp only [getItemBySlice]
  rw [if_neg hstep]
  split
  · exact ⟨_, rfl⟩
  · exact ⟨_, rfl⟩

/-- C3: an integer needle returns the byte at the wrapped position as an
integer value, raising an index error exactly when the wrapped position is
still out of bounds; a slice needle (with the step not zero, a slice's
only invalid shape) never errors, out-of-range bounds being clamped. -/
theorem bytes_getitem_spec (elements : List Nat) (i : Int) (s : PySlice)
    (hs : s.step ≠ some 0) :
    (0 ≤ wrapIndex elements.length i ∧ wrapIndex elements.length i < (elements.length : Int) →
      PyBytes.getitem elements (SequenceIndex.int i) =
        Except.ok (PyValue.int (elements.getD (wrapIndex elements.length i).toNat 0))) ∧
    (¬ (0 ≤ wrapIndex elements.length i ∧ wrapIndex elements.length i < (elements.length : Int)) →
      PyBytes.getitem elements (SequenceIndex.int i) = Except.error PyErr.indexError) ∧
    (∃ bs, PyBytes.getitem elements (SequenceIndex.slice s) = Except.ok (PyValue.bytes bs)) := by
  refine ⟨fun h => ?_, fun h => ?_, ?_⟩
  · simp [PyBytes.getitem, getItemByIndex, h, Except.map]
  · simp [PyBytes.getitem, getItemByIndex, h, Except.map]
  · obtain ⟨bs, hbs⟩ := getItemBySlice_ok elements s hs
    exact ⟨bs, by simp [PyBytes.getitem, hbs, Except.map]⟩

/-- C3 witness: `b"\x0a\x14\x1e"[-1] == 30`, index 3 raises an index
error, and a full negative-step slice returns a bytes value. -/
theorem bytes_getitem_spec_witness :
    PyBytes.getitem [10, 20, 30] (SequenceIndex.int (-1)) = Except.ok (PyValue.int 30) ∧
    PyBytes.getitem [10, 20, 30] (SequenceIndex.int 3) = Except.error PyErr.indexError ∧
    (∃ bs, PyBytes.getitem [10, 20, 30] (SequenceIndex.slice ⟨none, none, some (-1)⟩) =
      Except.ok (PyValue.bytes bs)) := by
  have h1 := (bytes_getitem_spec [10, 20, 30] (-1) ⟨none, none, some (-1)⟩ (by decide)).1
    (by decide)
  have h2 := (bytes_getitem_spec [10, 20, 30] 3 ⟨none, none, some (-1)⟩ (by decide)).2.1
    (by decide)
  have h3 := (bytes_getitem_spec [10, 20, 30] 3 ⟨none, none, some (-1)⟩ (by decide)).2.2
  exact ⟨h1.trans (by rfl), h2, h3⟩

/-- C4: for an in-range index, the sequence-table `item` entry returns a
fresh length-1 bytes value holding the byte at that position, while the
mapping-table `subscript` entry returns the same byte as an integer
value; the two results deliberately differ. -/
theorem bytes_item_vs_subscript (elements : List Nat) (i : Int)
    (h0 : 0 ≤ i) (hlen : i < (elements.length : Int)) :
    PyBytes.seqItem elements i = Except.ok (PyValue.bytes [elements.getD i.toNat 0]) ∧
    PyBytes.getitem elements (SequenceIndex.int i) =
      Except.ok (PyValue.int (elements.getD i.toNat 0)) ∧
    PyBytes.seqItem elements i ≠ PyBytes.getitem elements (SequenceIndex.int i) := by
  have hw : wrapIndex elements.length i = i := by
    simp [wrapIndex, not_lt.mpr h0]
  have hin : 0 ≤ wrapIndex elements.length i ∧
      wrapIndex elements.length i < (elements.length : Int) := by
    rw [hw]; exact ⟨h0, hlen⟩
  refine ⟨?_, ?_, ?_⟩
  · simp [PyBytes.seqItem, getItemByIndex, hin, hw, h0, hlen, Except.map]
  · simp [PyBytes.getitem, getItemByIndex, hin, hw, h0, hlen, Except.map]
  · simp [PyBytes.seqItem, PyBytes.getitem, getItemByIndex, hin, hw, h0, hlen, Except.map]

/-- C4 witness: at index 1 of `[10, 20, 30]`, `item` returns the bytes
value `[20]` and `subscript` the integer 20. -/
theorem bytes_item_vs_subscript_witness :
    PyBytes.seqItem [10, 20, 30] 1 = Except.ok (PyValue.bytes [20]) ∧
    PyBytes.getitem [10, 20, 30] (SequenceIndex.int 1) = Except.ok (PyValue.int 20) ∧
    PyBytes.seqItem [10, 20, 30] 1 ≠ PyBytes.getitem [10, 20, 30] (SequenceIndex.int 1) := by
  have h := bytes_item_vs_subscript [10, 20, 30] 1 (by decide) (by decide)
  exact ⟨h.1.trans (by rfl), h.2.1.trans (by rfl), h.2.2⟩

/-- The six rich-comparison operators. -/
inductive PyComparisonOp
  | lt
  | le
  | eq
  | ne
  | gt
  | ge
  deriving DecidableEq, Repr

/-- Modelled from the spec: the result of the identity fast path, valid
for all six operators on identical operands (equal/not-equal resolve by
identity, ordering operators resolve via reflexivity). -/
def PyComparisonOp.identicalResult : PyComparisonOp → Bool
  | PyComparisonOp.lt => false
  | PyComparisonOp.le => true
  | PyComparisonOp.eq => true
  | PyComparisonOp.ne => false
  | PyComparisonOp.gt => false
  | PyComparisonOp.ge => true

/-- Applying a comparison operator to a lexicographic ordering outcome. -/
def PyComparisonOp.applyOrd : PyComparisonOp → Ordering → Bool
  | PyComparisonOp.lt, o => o = Ordering.lt
  | PyComparisonOp.le, o => o ≠ Ordering.gt
  | PyComparisonOp.eq, o => o = Ordering.eq
  | PyComparisonOp.ne, o => o ≠ Ordering.eq
  | PyComparisonOp.gt, o => o = Ordering.gt
  | PyComparisonOp.ge, o => o ≠ Ordering.lt

/-- Byte-wise lexicographic comparison of two byte sequences. -/
def lexCompare : List Nat → List Nat → Ordering
  | [], [] => Ordering.eq
  | [], _ :: _ => Ordering.lt
  | _ :: _, [] => Ordering.gt
  | x :: xs, y :: ys =>
    if x < y then Ordering.lt else if y < x then Ordering.gt else lexCompare xs ys

/-- What the right-hand operand of a comparison can be: another bytes
object (of any class), a buffer-view (memoryview) value, or something not
byte-sequence-like at all. -/
inductive OperandPayload
  | bytesObj (cls : BytesCls) (data : List Nat)
  | memoryview (data : List Nat)
  | nonBytes
  deriving DecidableEq, Repr

/-- The runtime-type test `other.isinstance(memoryview_type)`. -/
def OperandPayload.isMemoryview : OperandPayload → Bool
  | OperandPayload.memoryview _ => true
  | _ => false

/-- A generic right-hand operand: object identity plus payload. -/
structure PyOperand where
  oid : Nat
  payload : OperandPayload
  deriving DecidableEq, Repr

/-- A comparison either produces a boolean or reports that the operand
pair is not handled (`NotImplemented`), letting dispatch try the reverse
operand. -/
inductive PyComparisonValue
  | implemented (b : Bool)
  | notImplemented
  deriving DecidableEq, Repr

/-- Modelled from the spec: `op.identical_optimization(zelf, other)`
(object-model helper, not under `src/`): when the operands are the
identical object, short-circuit with the identity result. -/
def identicalOptimization (zelfOid : Nat) (other : PyOperand) (op : PyComparisonOp) :
    Option Bool :=
  if zelfOid = other.oid then some op.identicalResult else none

/-- Modelled from the spec: `PyBytesInner::cmp` (shared algorithm library,
not under `src/`): byte-wise lexicographic comparison against any
byte-sequence-like operand, `NotImplemented` otherwise. -/
def innerCmp (data : List Nat) (other : OperandPayload) (op : PyComparisonOp) :
    PyComparisonValue :=
  match other with
  | OperandPayload.bytesObj _ odata => PyComparisonValue.implemented (op.applyOrd (lexCompare data odata))
  | OperandPayload.memoryview odata => PyComparisonValue.implemented (op.applyOrd (lexCompare data odata))
  | OperandPayload.nonBytes => PyComparisonValue.notImplemented

/-- `Comparable for PyBytes` (`cmp`): identity fast path first; then the
categorical type error for ordering comparisons against a memoryview;
otherwise content comparison. -/
def PyBytes.cmp (zelf : BytesObj) (other : PyOperand) (op : PyComparisonOp) :
    Except PyErr PyComparisonValue :=
  match identicalOptimization zelf.oid other op with
  | some res => Except.ok (PyComparisonValue.implemented res)
  | none =>
    if other.payload.isMemoryview ∧
        op ≠ PyComparisonOp.eq ∧ op ≠ PyComparisonOp.ne then
      Except.error PyErr.typeError
    else
      Except.ok (innerCmp zelf.elements other.payload op)

theorem isMemoryview_of_ex {p : OperandPayload} (h : ∃ d, p = OperandPayload.memoryview d) :
    p.isMemoryview = true := by
  obtain ⟨d, rfl⟩ := h
  rfl

/-- C2: a comparison against a memoryview operand with an ordering
operator fails with a type error (once past the identity fast path), an
equality or inequality operator never raises that type error and proceeds
to content comparison, and identical operands short-circuit for all six
operators. -/
theorem bytes_cmp_memoryview_boundary (zelf : BytesObj) (other : PyOperand)
    (op : PyComparisonOp) :
    (zelf.oid = other.oid →
      PyBytes.cmp zelf other op =
        Except.ok (PyComparisonValue.implemented op.identicalResult)) ∧
    (zelf.oid ≠ other.oid → (∃ d, other.payload = OperandPayload.memoryview d) →
      op ≠ PyComparisonOp.eq → op ≠ PyComparisonOp.ne →
      PyBytes.cmp zelf other op = Except.error PyErr.typeError) ∧
    ((op = PyComparisonOp.eq ∨ op = PyComparisonOp.ne) →
      PyBytes.cmp zelf other op ≠ Except.error PyErr.typeError) ∧
    (zelf.oid ≠ other.oid → (op = PyComparisonOp.eq ∨ op = PyComparisonOp.ne) →
      PyBytes.cmp zelf other op = Except.ok (innerCmp zelf.elements other.payload op)) := by
  refine ⟨fun hid => ?_, fun hid hmv hne hnn => ?_, fun heq => ?_, fun hid heq => ?_⟩
  · simp [PyBytes.cmp, identicalOptimization, hid]
  · simp [PyBytes.cmp, identicalOptimization, hid, isMemoryview_of_ex hmv, hne, hnn]
  · rcases Decidable.em (zelf.oid = other.oid) with hid | hid
    · simp [PyBytes.cmp, identicalOptimization, hid]
    · rcases heq with h | h <;> simp [PyBytes.cmp, identicalOptimization, hid, h]
  · rcases heq with h | h <;> simp [PyBytes.cmp, identicalOptimization, hid, h]

/-- C2 witness: a bytes value `[1, 2]` compared with a distinct
memoryview of `[1, 2]`: `<` raises a type error, `==` evaluates by
content, and comparing an object with itself short-circuits. -/
theorem bytes_cmp_memoryview_boundary_witness :
    PyBytes.cmp ⟨0, BytesCls.base, [1, 2], none⟩ ⟨1, OperandPayload.memoryview [1, 2]⟩
      PyComparisonOp.lt = Except.error PyErr.typeError ∧
    PyBytes.cmp ⟨0, BytesCls.base, [1, 2], none⟩ ⟨1, OperandPayload.memoryview [1, 2]⟩
      PyComparisonOp.eq = Except.ok (PyComparisonValue.implemented true) ∧
    PyBytes.cmp ⟨0, BytesCls.base, [1, 2], none⟩ ⟨0, OperandPayload.memoryview [1, 2]⟩
      PyComparisonOp.lt = Except.ok (PyComparisonValue.implemented false) := by
  have h1 := (bytes_cmp_memoryview_boundary ⟨0, BytesCls.base, [1, 2], none⟩
    ⟨1, OperandPayload.memoryview [1, 2]⟩ PyComparisonOp.lt).2.1
    (by decide) ⟨[1, 2], rfl⟩ (by decide) (by decide)
  have h2 := (bytes_cmp_memoryview_boundary ⟨0, BytesCls.base, [1, 2], none⟩
    ⟨1, OperandPayload.memoryview [1, 2]⟩ PyComparisonOp.eq).2.2.2
    (by decide) (Or.inl rfl)
  have h3 := (bytes_cmp_memoryview_boundary ⟨0, BytesCls.base, [1, 2], none⟩
    ⟨0, OperandPayload.memoryview [1, 2]⟩ PyComparisonOp.lt).1 rfl
  exact ⟨h1, h2.trans (by rfl), h3.trans (by rfl)⟩

/-- The bytes iterator: a shared reference to the source byte value's
content and a mutable cursor position (`PositionIterInternal`, held under
a lock in the source; the lock is irrelevant to the sequential semantics
modelled here). -/
structure BytesIterator where
  source : List Nat
  position : Nat
  deriving DecidableEq, Repr

/-- The outcome of one `next` call: an element, or the iteration-exhausted
signal, which is not an error. -/
inductive PyIterReturn
  | ret (n : Nat)
  | stopIteration
  deriving DecidableEq, Repr

/-- Modelled from the spec: `IterNext for PyBytesIterator` with
`PositionIterInternal::next` (iterator core, not under `src/`): read the
byte at the current position; if present return it and advance by one,
otherwise signal exhaustion and leave the position unchanged. -/
def BytesIterator.next (it : BytesIterator) : PyIterReturn × BytesIterator :=
  match it.source[it.position]? with
  | some b => (PyIterReturn.ret b, { it with position := it.position + 1 })
  | none => (PyIterReturn.stopIteration, it)

/-- `Iterable for PyBytes`: a fresh iterator starts at position 0. -/
def PyBytes.iter (zelf : BytesObj) : BytesIterator :=
  { source := zelf.elements, position := 0 }

/-- `PyBytesIterator::length_hint`: remaining element count. -/
def BytesIterator.length_hint (it : BytesIterator) : Nat :=
  it.source.length - it.position

/-- `PyBytesIterator::setstate` (the clamping closure `pos.min(obj.len())`
is in the source; the conversion of the supplied state to a non-negative
integer, `max(0)`, is modelled from the spec): the supplied position is
clamped to `[0, source.length]`, never erroring. -/
def BytesIterator.setstate (it : BytesIterator) (p : Int) : BytesIterator :=
  { it with position := min (max p 0).toNat it.source.length }

/-- C5: the cursor invariant `position ≤ length` is preserved by `next`;
when the position is in range, `next` returns the byte there and advances
by exactly one; once the position has reached the length, `next` returns
the exhaustion signal (a normal value, not an error) and leaves the whole
iterator — position included — unchanged, so every subsequent call does
the same. -/
theorem bytes_iterator_next_spec (it : BytesIterator)
    (hinv : it.position ≤ it.source.length) :
    (it.next.2.position ≤ it.next.2.source.length) ∧
    (it.position < it.source.length →
      it.next.1 = PyIterReturn.ret (it.source.getD it.position 0) ∧
      it.next.2.position = it.position + 1 ∧
      it.next.2.source = it.source) ∧
    (it.position = it.source.length →
      it.next.1 = PyIterReturn.stopIteration ∧ it.next.2 = it) := by
  refine ⟨?_, fun hlt => ?_, fun heq => ?_⟩
  · by_cases hlt : it.position < it.source.length
    · simp [BytesIterator.next, List.getElem?_eq_getElem hlt]
      omega
    · have h : it.source[it.position]? = none := List.getElem?_eq_none (by omega)
      simp [BytesIterator.next, h, hinv]
  · simp [BytesIterator.next, List.getElem?_eq_getElem hlt, List.getD_eq_getElem?_getD]
  · have h : it.source[it.position]? = none := List.getElem?_eq_none (le_of_eq heq.symm)
    simp [BytesIterator.next, h]

/-- C5 witness: an iterator over `[5, 6]`: at position 0 `next` yields 5
and advances to 1; at position 2 it signals exhaustion and stays put. -/
theorem bytes_iterator_next_spec_witness :
    (BytesIterator.next ⟨[5, 6], 0⟩).1 = PyIterReturn.ret 5 ∧
    (BytesIterator.next ⟨[5, 6], 0⟩).2.position = 1 ∧
    (BytesIterator.next ⟨[5, 6], 2⟩).1 = PyIterReturn.stopIteration ∧
    (BytesIterator.next ⟨[5, 6], 2⟩).2 = ⟨[5, 6], 2⟩ := by
  have h1 := (bytes_iterator_next_spec ⟨[5, 6], 0⟩ (by decide)).2.1 (by decide)
  have h2 := (bytes_iterator_next_spec ⟨[5, 6], 2⟩ (by decide)).2.2 (by decide)
  exact ⟨h1.1.trans (by rfl), h1.2.1, h2.1, h2.2⟩

/-- C6: `setstate` sets the cursor position to the supplied value clamped
to `[0, source.length]`; being a total function of any supplied integer,
it never errors, and the invariant holds afterwards. -/
theorem bytes_iterator_setstate_clamps (it : BytesIterator) (p : Int) :
    (it.setstate p).position = min (max p 0).toNat it.source.length ∧
    (it.setstate p).source = it.source ∧
    (it.setstate p).position ≤ it.source.length ∧
    (0 ≤ p → p ≤ (it.source.length : Int) → (it.setstate p).position = p.toNat) := by
  refine ⟨rfl, rfl, min_le_right _ _, fun h0 hl => ?_⟩
  have hmax : max p 0 = p := max_eq_left h0
  have hle : p.toNat ≤ it.source.length := by omega
  simp [BytesIterator.setstate, hmax, min_eq_left hle]

/-- C6 witness: on a 3-byte source, position 7 clamps to 3, position -2
clamps to 0, and the in-range position 2 is taken as is. -/
theorem bytes_iterator_setstate_clamps_witness :
    (BytesIterator.setstate ⟨[1, 2, 3], 0⟩ 7).position = 3 ∧
    (BytesIterator.setstate ⟨[1, 2, 3], 0⟩ (-2)).position = 0 ∧
    (BytesIterator.setstate ⟨[1, 2, 3], 0⟩ 2).position = 2 := by
  have h1 := (bytes_iterator_setstate_clamps ⟨[1, 2, 3], 0⟩ 7).1
  have h2 := (bytes_iterator_setstate_clamps ⟨[1, 2, 3], 0⟩ (-2)).1
  have h3 := (bytes_iterator_setstate_clamps ⟨[1, 2, 3], 0⟩ 2).2.2.2 (by decide) (by decide)
  exact ⟨h1.trans (by rfl), h2.trans (by rfl), h3.trans (by rfl)⟩

/-- `PyBytes::getnewargs`: the source builds the result tuple directly
from `self.inner.elements`, one integer value per byte — the tuple has as
many elements as the byte sequence has bytes. -/
def PyBytes.getnewargs (elements : List Nat) : List PyValue :=
  elements.map PyValue.int

/-- C7 (failing evaluation): for the 3-byte value `[97, 98, 99]`,
`getnewargs` returns the three-element tuple `(97, 98, 99)` of integers,
not a single-element tuple holding the byte sequence; calling the
constructor with these three arguments cannot reconstruct the value. -/
theorem bytes_getnewargs_not_single_element :
    PyBytes.getnewargs [97, 98, 99] =
      [PyValue.int 97, PyValue.int 98, PyValue.int 99] ∧
    (PyBytes.getnewargs [97, 98, 99]).length = 3 ∧
    (PyBytes.getnewargs [97, 98, 99]).length ≠ 1 := by
  refine ⟨rfl, rfl, by decide⟩

/-- `PyBytes::reduce`: the serialization triple — the receiver's actual
runtime class, a one-element tuple holding a freshly allocated plain
base-class copy of the bytes, and the receiver's optional instance
attribute dictionary. -/
def PyBytes.reduce (zelf : BytesObj) (fresh : Nat) :
    BytesCls × List BytesObj × Option Nat :=
  (zelf.cls,
   [{ oid := fresh, cls := BytesCls.base, elements := zelf.elements, dict := none }],
   zelf.dict)

/-- `PyBytes::reduce_ex`: ignores the protocol argument and forwards to
`reduce`. -/
def PyBytes.reduce_ex (zelf : BytesObj) (_proto : Nat) (fresh : Nat) :
    BytesCls × List BytesObj × Option Nat :=
  PyBytes.reduce zelf fresh

/-- C8: `reduce` and `reduce_ex` (for every protocol argument) agree and
return the triple (actual runtime class — also for subclass instances, a
one-element tuple whose sole element is a fresh plain base-class bytes
object with the same content and never the receiver itself, the
receiver's optional attribute dictionary). -/
theorem bytes_reduce_triple (zelf : BytesObj) (proto fresh : Nat)
    (hf : fresh ≠ zelf.oid) :
    PyBytes.reduce_ex zelf proto fresh = PyBytes.reduce zelf fresh ∧
    (PyBytes.reduce zelf fresh).1 = zelf.cls ∧
    (PyBytes.reduce zelf fresh).2.2 = zelf.dict ∧
    ∃ e, (PyBytes.reduce zelf fresh).2.1 = [e] ∧
      e.cls = BytesCls.base ∧ e.elements = zelf.elements ∧ e.oid ≠ zelf.oid :=
  ⟨rfl, rfl, rfl, ⟨_, rfl, rfl, rfl, hf⟩⟩

/-- C8 witness: a subclass instance with an attribute dictionary: the
first component is its subclass, the tuple element a distinct fresh
base-class copy. -/
theorem bytes_reduce_triple_witness :
    PyBytes.reduce_ex ⟨2, BytesCls.sub 5, [7, 8], some 11⟩ 4 9 =
      PyBytes.reduce ⟨2, BytesCls.sub 5, [7, 8], some 11⟩ 9 ∧
    (PyBytes.reduce ⟨2, BytesCls.sub 5, [7, 8], some 11⟩ 9).1 = BytesCls.sub 5 ∧
    (PyBytes.reduce ⟨2, BytesCls.sub 5, [7, 8], some 11⟩ 9).2.2 = some 11 ∧
    (∃ e, (PyBytes.reduce ⟨2, BytesCls.sub 5, [7, 8], some 11⟩ 9).2.1 = [e] ∧
      e.cls = BytesCls.base ∧ e.elements = [7, 8] ∧ e.oid ≠ 2) := by
  have h := bytes_reduce_triple ⟨2, BytesCls.sub 5, [7, 8], some 11⟩ 4 9 (by decide)
  exact ⟨h.1, h.2.1, h.2.2.1, h.2.2.2⟩

/-- A buffer descriptor: declared length and read-only flag
(`BufferDescriptor::simple(zelf.len(), true)`; modelled from the spec for
the descriptor shape, since the descriptor type lives outside `src/`). -/
structure BufferDescriptor where
  len : Nat
  readonly : Bool
  deriving DecidableEq, Repr

/-- A buffer produced by the export: the owning bytes object and its
descriptor. -/
structure PyBuffer where
  obj : BytesObj
  desc : BufferDescriptor
  deriving DecidableEq, Repr

/-- The only possible outcome of invoking the mutable-bytes accessor of
this type's buffer methods: an unconditional abort (`panic!()`). -/
inductive MutAccessOutcome
  | abort
  deriving DecidableEq, Repr

/-- `BUFFER_METHODS.obj_bytes`: the owner's bytes, read-only. -/
def BUFFER_METHODS_obj_bytes (buffer : PyBuffer) : List Nat :=
  buffer.obj.elements

/-- `BUFFER_METHODS.obj_bytes_mut`: wired to `panic!()` — aborts for
every buffer, unconditionally. -/
def BUFFER_METHODS_obj_bytes_mut (_buffer : PyBuffer) : MutAccessOutcome :=
  MutAccessOutcome.abort

/-- `BUFFER_METHODS.release`: a no-op. -/
def BUFFER_METHODS_release (buffer : PyBuffer) : PyBuffer :=
  buffer

/-- `BUFFER_METHODS.retain`: a no-op. -/
def BUFFER_METHODS_retain (buffer : PyBuffer) : PyBuffer :=
  buffer

/-- `AsBuffer for PyBytes`: the exported buffer carries the owner and a
descriptor with the owner's length and the read-only flag set. -/
def PyBytes.as_buffer (zelf : BytesObj) : PyBuffer :=
  { obj := zelf, desc := { len := zelf.elements.length, readonly := true } }

/-- C9: every exported buffer's descriptor has the value's length and the
read-only flag set; the release and retain hooks are no-ops; and the
mutable-bytes accessor aborts on every buffer ever obtained from this
type. -/
theorem bytes_buffer_export_contract :
    (∀ zelf : BytesObj,
      (PyBytes.as_buffer zelf).desc.len = zelf.elements.length ∧
      (PyBytes.as_buffer zelf).desc.readonly = true ∧
      BUFFER_METHODS_obj_bytes (PyBytes.as_buffer zelf) = zelf.elements) ∧
    (∀ buffer : PyBuffer,
      BUFFER_METHODS_release buffer = buffer ∧
      BUFFER_METHODS_retain buffer = buffer ∧
      BUFFER_METHODS_obj_bytes_mut buffer = MutAccessOutcome.abort) :=
  ⟨fun _ => ⟨rfl, rfl, rfl⟩, fun _ => ⟨rfl, rfl, rfl⟩⟩
